import Mathlib

/-!
Verification development for the PeerVault peer-to-peer content-addressable
file store.  The definitions below are a shallow embedding of the Go source:
bytes are `Nat` values below 256, files on disk are entries of an association
list from the full path string to the byte content, and the stateful server
operations are explicit state-passing functions.  Machine integers are `Nat`
with explicit reduction modulo 2^32 where the source relies on overflow.
-/

set_option maxRecDepth 100000

namespace PeerVault

/-! ## 32-bit word arithmetic (Go `uint32`) -/

def M32 : Nat := 4294967296

def add32 (a b : Nat) : Nat := (a + b) % M32

def xor32 (a b : Nat) : Nat := Nat.xor a b

def and32 (a b : Nat) : Nat := Nat.land a b

def or32 (a b : Nat) : Nat := Nat.lor a b

def not32 (a : Nat) : Nat := Nat.xor a 4294967295

def rotr32 (n a : Nat) : Nat := or32 (a >>> n) ((a <<< (32 - n)) % M32)

/-! ## SHA-256 (Go `crypto/sha256`), used by `internal/crypto.HashKey` and by
the garbage collector's `calculateFileHash`. -/

def shaK : List Nat :=
  [1116352408, 1899447441, 3049323471, 3921009573, 961987163, 1508970993,
   2453635748, 2870763221, 3624381080, 310598401, 607225278, 1426881987,
   1925078388, 2162078206, 2614888103, 3248222580, 3835390401, 4022224774,
   264347078, 604807628, 770255983, 1249150122, 1555081692, 1996064986,
   2554220882, 2821834349, 2952996808, 3210313671, 3336571891, 3584528711,
   113926993, 338241895, 666307205, 773529912, 1294757372, 1396182291,
   1695183700, 1986661051, 2177026350, 2456956037, 2730485921, 2820302411,
   3259730800, 3345764771, 3516065817, 3600352804, 4094571909, 275423344,
   430227734, 506948616, 659060556, 883997877, 958139571, 1322822218,
   1537002063, 1747873779, 1955562222, 2024104815, 2227730452, 2361852424,
   2428436474, 2756734187, 3204031479, 3329325298]

def shaH0 : List Nat :=
  [1779033703, 3144134277, 1013904242, 2773480762,
   1359893119, 2600822924, 528734635, 1541459225]

def ssig0 (x : Nat) : Nat := xor32 (rotr32 7 x) (xor32 (rotr32 18 x) (x >>> 3))

def ssig1 (x : Nat) : Nat := xor32 (rotr32 17 x) (xor32 (rotr32 19 x) (x >>> 10))

def bsig0 (x : Nat) : Nat := xor32 (rotr32 2 x) (xor32 (rotr32 13 x) (rotr32 22 x))

def bsig1 (x : Nat) : Nat := xor32 (rotr32 6 x) (xor32 (rotr32 11 x) (rotr32 25 x))

def be64 (n : Nat) : List Nat :=
  [n / 72057594037927936 % 256, n / 281474976710656 % 256,
   n / 1099511627776 % 256, n / 4294967296 % 256,
   n / 16777216 % 256, n / 65536 % 256, n / 256 % 256, n % 256]

def be32 (w : Nat) : List Nat :=
  [w / 16777216 % 256, w / 65536 % 256, w / 256 % 256, w % 256]

/-- SHA-256 length padding: a 0x80 byte, zeros up to 56 mod 64, then the
bit length as a big-endian 64-bit integer. -/
def padMessage (msg : List Nat) : List Nat :=
  msg ++ [128] ++ List.replicate ((55 + 64 - msg.length % 64) % 64) 0 ++ be64 (8 * msg.length)

/-- Pack big-endian groups of four bytes into 32-bit words. -/
def toWords : List Nat → List Nat
  | a :: b :: c :: d :: rest => (((a * 256 + b) * 256 + c) * 256 + d) :: toWords rest
  | _ => []

/-- Message-schedule extension: append `i` further words, each computed from
the words 16, 15, 7 and 2 positions back. -/
def schedGo : List Nat → Nat → List Nat
  | w, 0 => w
  | w, i + 1 =>
    let k := w.length
    let wi := add32 (add32 (w.getD (k - 16) 0) (ssig0 (w.getD (k - 15) 0)))
                    (add32 (w.getD (k - 7) 0) (ssig1 (w.getD (k - 2) 0)))
    schedGo (w ++ [wi]) i

def schedule (w16 : List Nat) : List Nat := schedGo w16 48

structure Regs where
  a : Nat
  b : Nat
  c : Nat
  d : Nat
  e : Nat
  f : Nat
  g : Nat
  h : Nat
  deriving DecidableEq

def roundFn (ki wi : Nat) (r : Regs) : Regs :=
  let s1 := bsig1 r.e
  let ch := xor32 (and32 r.e r.f) (and32 (not32 r.e) r.g)
  let t1 := add32 (add32 (add32 r.h s1) (add32 ch ki)) wi
  let s0 := bsig0 r.a
  let maj := xor32 (and32 r.a r.b) (xor32 (and32 r.a r.c) (and32 r.b r.c))
  let t2 := add32 s0 maj
  ⟨add32 t1 t2, r.a, r.b, r.c, add32 r.d t1, r.e, r.f, r.g⟩

def compressBlock (H : List Nat) (w16 : List Nat) : List Nat :=
  let w := schedule w16
  let r0 : Regs := ⟨H.getD 0 0, H.getD 1 0, H.getD 2 0, H.getD 3 0,
                    H.getD 4 0, H.getD 5 0, H.getD 6 0, H.getD 7 0⟩
  let r := (List.zip shaK w).foldl (fun s p => roundFn p.1 p.2 s) r0
  [add32 (H.getD 0 0) r.a, add32 (H.getD 1 0) r.b, add32 (H.getD 2 0) r.c,
   add32 (H.getD 3 0) r.d, add32 (H.getD 4 0) r.e, add32 (H.getD 5 0) r.f,
   add32 (H.getD 6 0) r.g, add32 (H.getD 7 0) r.h]

/-- Fold the compression function over the 64-byte blocks of the padded
message.  The first argument is recursion fuel (any bound on the number of
remaining bytes keeps the recursion structural and kernel-reducible). -/
def sha256Go : Nat → List Nat → List Nat → List Nat
  | 0, H, _ => H
  | _, H, [] => H
  | fuel + 1, H, msg => sha256Go fuel (compressBlock H (toWords (msg.take 64))) (msg.drop 64)

/-- SHA-256 of a byte sequence, as the 32-byte digest. -/
def sha256Bytes (msg : List Nat) : List Nat :=
  let p := padMessage msg
  ((sha256Go p.length shaH0 p).map be32).flatten

/-! ## Hex encoding (Go `encoding/hex.EncodeToString`) -/

def hexChar (n : Nat) : Char := if n < 10 then Char.ofNat (48 + n) else Char.ofNat (87 + n)

def byteHexChars (b : Nat) : List Char := [hexChar (b / 16), hexChar (b % 16)]

def hexChars (bs : List Nat) : List Char := (bs.map byteHexChars).flatten

def hexOfBytes (bs : List Nat) : String := String.mk (hexChars bs)

/-! ## UTF-8 encoding of a string (Go `[]byte(s)`) -/

def utf8Char (c : Char) : List Nat :=
  let n := c.toNat
  if n < 128 then [n]
  else if n < 2048 then [192 + n / 64, 128 + n % 64]
  else if n < 65536 then [224 + n / 4096, 128 + n / 64 % 64, 128 + n % 64]
  else [240 + n / 262144, 128 + n / 4096 % 64, 128 + n / 64 % 64, 128 + n % 64]

def utf8Bytes (s : String) : List Nat := (s.data.map utf8Char).flatten

/-- `internal/crypto.HashKey`: hex-encoded SHA-256 of the UTF-8 bytes of the
key. -/
def HashKey (key : String) : String := hexOfBytes (sha256Bytes (utf8Bytes key))

/-! ## Content-address path transform

`internal/storage`'s `Store` and its path transform are not under `src/`
(only their test `TestPathTransformFunc` and their callers are), so the
transform is modelled from the spec below; its structure mirrors the
`package main` copy in `src/store.go` (CASPathTransformFunc), with SHA-256 in
place of SHA-1 as fixed by §4.1/§4.2 of the spec and by the storage test's
expected vector. -/

/-- The segment list built by the transform's loop: `sliceLen = len/5` slices,
slice `i` being the five characters starting at position `5*i`. -/
def casSegments (hash : List Char) : List (List Char) :=
  (List.range (hash.length / 5)).map (fun i => (hash.drop (5 * i)).take 5)

structure PathKey where
  PathName : String
  Filename : String
  deriving DecidableEq

/-- Modelled from the spec: `internal/storage.CASPathTransformFunc` (file not
under `src/`): hash the key with SHA-256, hex-encode, join the consecutive
fixed 5-character segments with `/`, and use the full hex digest as the leaf
filename. -/
def CASPathTransformFunc (key : String) : PathKey :=
  let hashStr := HashKey key
  { PathName := String.intercalate "/" ((casSegments hashStr.data).map String.mk),
    Filename := hashStr }

/-- The spec's description of the segmentation (§4.2): repeatedly peel off a
fixed 5-character segment; a remainder shorter than a segment contributes
nothing.  The first argument is recursion fuel. -/
def specChunksGo : Nat → List Char → List (List Char)
  | 0, _ => []
  | fuel + 1, l => if l.length < 5 then [] else l.take 5 :: specChunksGo fuel (l.drop 5)

def specChunks (l : List Char) : List (List Char) := specChunksGo l.length l

/-- `PathKey.FullPath`: the joined segment path followed by the leaf. -/
def fullPathOf (pk : PathKey) : String := pk.PathName ++ "/" ++ pk.Filename

/-! ## Content-addressed store on a modelled filesystem

The filesystem is an association list from full path strings to file
contents; the first matching entry wins, so prepending an entry models
`os.Create`'s create-or-truncate. -/

def Disk := List (String × List Nat)

instance : DecidableEq Disk := by
  unfold Disk
  infer_instance

def diskLookup : Disk → String → Option (List Nat)
  | [], _ => none
  | (p, d) :: rest, q => if p = q then some d else diskLookup rest q

/-- The path `Store` builds: `<root>/<id>/<PathName>/<Filename>`. -/
def storePath (root id key : String) : String :=
  root ++ "/" ++ id ++ "/" ++ fullPathOf (CASPathTransformFunc key)

/-- `Store.Has`: stat the resolved path. -/
def storeHas (root id key : String) (disk : Disk) : Bool :=
  (diskLookup disk (storePath root id key)).isSome

/-- `Store.Write` / `writeStream`: create-or-truncate the leaf and copy the
source into it, returning the byte count. -/
def storeWrite (root id key : String) (data : List Nat) (disk : Disk) : Nat × Disk :=
  (data.length, (storePath root id key, data) :: disk)

/-- `Store.Read` / `readStream`: open the file and return its size and
contents; `none` is the open error for a missing path. -/
def storeRead (root id key : String) (disk : Disk) : Option (Nat × List Nat) :=
  match diskLookup disk (storePath root id key) with
  | none => none
  | some d => some (d.length, d)

/-- Membership of a path in the subtree rooted at directory `d`
(`os.RemoveAll d` removes exactly these entries). -/
def underDir (d p : String) : Bool := p == d || (d.data ++ ['/']).isPrefixOf p.data

/-- `Store.Delete`: remove the first-segment subtree
`<root>/<id>/<FirstPathName>` (`PathKey.FirstPathName` is the part of the
path name before the first separator). -/
def storeDelete (root id key : String) (disk : Disk) : Disk :=
  let pk := CASPathTransformFunc key
  let firstSeg := String.mk (pk.PathName.data.takeWhile (fun c => c ≠ '/'))
  let target := root ++ "/" ++ id ++ "/" ++ firstSeg
  disk.filter (fun e => !underDir target e.1)

/-! ## Streaming encryption (`internal/crypto/crypto.go`)

AES-256-CTR is a stream cipher: the keystream is a pure function of the key
and IV, XORed byte-by-byte into the data.  The keystream itself is modelled
as an abstract function `ks : Nat → Nat` from byte position to keystream
byte; no theorem below relies on any property of AES beyond this shape. -/

/-- XOR the data with the keystream starting at position `p`
(`cipher.Stream.XORKeyStream`). -/
def xorKS (ks : Nat → Nat) : Nat → List Nat → List Nat
  | _, [] => []
  | p, b :: bs => Nat.xor b (ks p) :: xorKS ks (p + 1) bs

/-- Split into the successive chunks a 32 KiB read buffer produces.  The
first argument is recursion fuel. -/
def chunksGo : Nat → List Nat → List (List Nat)
  | 0, _ => []
  | _, [] => []
  | fuel + 1, xs => xs.take 32768 :: chunksGo fuel (xs.drop 32768)

def chunks32k (xs : List Nat) : List (List Nat) := chunksGo xs.length xs

/-- `copyStream`'s loop over the chunk list: `nw` starts at `blockSize` and
accumulates the bytes written; the output is the XORed chunks in order. -/
def copyStreamGo (ks : Nat → Nat) : Nat → Nat → List (List Nat) → Nat × List Nat
  | _, nw, [] => (nw, [])
  | pos, nw, c :: cs =>
    let out := xorKS ks pos c
    let r := copyStreamGo ks (pos + c.length) (nw + c.length) cs
    (r.1, out ++ r.2)

/-- `copyStream`: encrypt `src` to the sink in 32 KiB chunks, counting
`blockSize` extra bytes in the return value. -/
def copyStream (ks : Nat → Nat) (blockSize : Nat) (src : List Nat) : Nat × List Nat :=
  copyStreamGo ks 0 blockSize (chunks32k src)

/-- Go's `aes.NewCipher` accepts exactly 16-, 24- or 32-byte keys. -/
def validAesKey (key : List Nat) : Prop :=
  key.length = 16 ∨ key.length = 24 ∨ key.length = 32

instance (key : List Nat) : Decidable (validAesKey key) := by
  unfold validAesKey
  infer_instance

/-- `CopyEncrypt`: build the cipher, write the 16-byte IV to the sink, then
`copyStream` the source with `blockSize = 16`; `none` is the key-length
error.  The IV (16 random bytes in the source) is a parameter. -/
def CopyEncrypt (ks : Nat → Nat) (key iv src : List Nat) : Option (Nat × List Nat) :=
  if validAesKey key then
    let r := copyStream ks 16 src
    some (r.1, iv ++ r.2)
  else none

/-- `CopyDecrypt`: read the leading 16 bytes as the IV, then `copyStream`
the remainder with `blockSize = 0`. -/
def CopyDecrypt (ks : Nat → Nat) (key src : List Nat) : Option (Nat × List Nat) :=
  if validAesKey key then some (copyStream ks 0 (src.drop 16))
  else none

/-! ## Quota manager (`internal/quota/quota.go`) -/

/-- `QuotaManager.GetCurrentUsage`: walk the store root summing file sizes. -/
def getCurrentUsage (root : String) (disk : Disk) : Nat :=
  (disk.filter (fun e => underDir root e.1)).foldl (fun acc e => acc + e.2.length) 0

/-- `QuotaManager.CheckQuota`: whether `newFileSize` fits into
`maxBytes - currentUsage`, together with the available space. -/
def CheckQuota (maxBytes : Int) (currentUsage : Int) (newFileSize : Int) : Bool × Int :=
  let available := maxBytes - currentUsage
  (decide (newFileSize ≤ available), available)

/-! ## Garbage collector (`internal/storage` gc, `src/unnamed/part_005`) -/

/-- The path component after the last separator (`info.Name()`). -/
def leafOf (p : String) : String :=
  String.mk (p.data.reverse.takeWhile (fun c => c ≠ '/')).reverse

/-- Everything before the last separator (`filepath.Dir`). -/
def dirOf (p : String) : String :=
  String.mk (p.data.reverse.drop ((p.data.reverse.takeWhile (fun c => c ≠ '/')).length + 1)).reverse

/-- `GarbageCollector.verifyIntegrity`: walk `<root>/<nodeID>`; for every
file whose leaf name has the 64-character length of a SHA-256 hex digest,
recompute SHA-256 over the file bytes; on mismatch remove the containing
directory subtree (`os.RemoveAll(filepath.Dir(path))`). -/
def gcSweep (root id : String) (disk : Disk) : Disk :=
  let nodeDir := root ++ "/" ++ id
  let bad := (disk.filter (fun e =>
      underDir nodeDir e.1 && (leafOf e.1).length == 64 &&
        hexOfBytes (sha256Bytes e.2) != leafOf e.1)).map (fun e => dirOf e.1)
  disk.filter (fun e => !(bad.any (fun d => underDir d e.1)))

/-! ## File server (`internal/network/server.go`) -/

structure Server where
  id : String
  root : String
  encKey : List Nat
  peers : List String
  disk : Disk
  deriving DecidableEq

structure MessageStoreFile where
  ID : String
  Key : String
  Size : Nat
  deriving DecidableEq

structure MessageGetFile where
  ID : String
  Key : String
  deriving DecidableEq

/-- `PeerInfo` of the PEX service (the `LastSeen` wall-clock field is not
representable and is not consulted by the inbound handler's filters). -/
structure PeerInfo where
  Address : String
  Source : String
  deriving DecidableEq

/-- The `Message.Payload` variants declared in package `network`
(`MessageStoreFile`, `MessageGetFile` in server.go, `MessagePeerExchange` in
pex.go); no delete variant exists in the source. -/
inductive MessagePayload
  | storeFile (m : MessageStoreFile)
  | getFile (m : MessageGetFile)
  | peerExchange (peers : List PeerInfo)
  deriving DecidableEq

/-- 8-byte little-endian encoding (`binary.Write(peer, binary.LittleEndian,
fileSize)`). -/
def le64 (n : Nat) : List Nat :=
  [n % 256, n / 256 % 256, n / 65536 % 256, n / 16777216 % 256,
   n / 4294967296 % 256, n / 1099511627776 % 256,
   n / 281474976710656 % 256, n / 72057594037927936 % 256]

/-- `FileServer.Store`: tee the source, write the plaintext copy to the
local store under `(s.ID, key)`, broadcast
`MessageStoreFile{ID: s.ID, Key: HashKey(key), Size: n+16}` to every peer,
then write the `IncomingStream` byte followed by `CopyEncrypt` of the
buffered copy to a multi-writer over all peer connections.  Returns the
updated server, the broadcast message, and the bytes written on each peer
connection after the message (`none` when `CopyEncrypt` fails; the local
write and the broadcast have happened by then). -/
def serverStore (ks : Nat → Nat) (srv : Server) (key : String) (data iv : List Nat) :
    Server × MessageStoreFile × Option (List Nat) :=
  let w := storeWrite srv.root srv.id key data srv.disk
  let srv2 := { srv with disk := w.2 }
  let msg : MessageStoreFile := ⟨srv.id, HashKey key, w.1 + 16⟩
  match CopyEncrypt ks srv.encKey iv data with
  | none => (srv2, msg, none)
  | some r => (srv2, msg, some (2 :: r.2))

/-- `FileServer.Get` on a node with an empty peer registry: a local hit is
served from disk; otherwise the broadcast reaches nobody, the peer loop is
empty, and the final local `store.Read` reports the miss. -/
def serverGetNoPeers (srv : Server) (key : String) : Option (List Nat) :=
  if storeHas srv.root srv.id key srv.disk then
    (storeRead srv.root srv.id key srv.disk).map (fun p => p.2)
  else
    (storeRead srv.root srv.id key srv.disk).map (fun p => p.2)

/-- `FileServer.handleMessageStoreFile`: the sender must be in the peer
registry; read exactly `msg.Size` bytes from its connection into the store
at `(msg.ID, msg.Key)` — without decryption. -/
def handleMessageStoreFile (srv : Server) (sender : String) (msg : MessageStoreFile)
    (stream : List Nat) : Option Server :=
  if sender ∈ srv.peers then
    some { srv with disk := (storeWrite srv.root msg.ID msg.Key (stream.take msg.Size) srv.disk).2 }
  else none

/-- `FileServer.handleMessageGetFile`: if the blob exists at
`(msg.ID, msg.Key)` — the requester's node-id — reply on the sender's
connection with the `IncomingStream` byte, the little-endian 64-bit size,
and the raw file bytes; otherwise fail the handler. -/
def handleMessageGetFile (srv : Server) (sender : String) (msg : MessageGetFile) :
    Option (List Nat) :=
  if !storeHas srv.root msg.ID msg.Key srv.disk then none
  else
    match storeRead srv.root msg.ID msg.Key srv.disk with
    | none => none
    | some (size, content) =>
      if sender ∈ srv.peers then some (2 :: (le64 size ++ content)) else none

/-- `FileServer.Delete`: fail if the blob is absent locally, otherwise
remove it from the local store.  The second component is the list of
messages the operation broadcasts: the source sends nothing. -/
def serverDelete (srv : Server) (key : String) : Option Server × List MessagePayload :=
  if !storeHas srv.root srv.id key srv.disk then (none, [])
  else (some { srv with disk := storeDelete srv.root srv.id key srv.disk }, [])

/-- The result of the inbound dispatcher for one message. -/
inductive DispatchAction
  | actStoreFile (sender : String) (m : MessageStoreFile)
  | actGetFile (sender : String) (m : MessageGetFile)
  | actNone
  deriving DecidableEq

/-- `FileServer.handleMessage`: the `switch` has cases for
`MessageStoreFile` and `MessageGetFile` only; every other payload —
including `MessagePeerExchange` — falls through and returns `nil` with no
effect. -/
def handleMessage (sender : String) : MessagePayload → DispatchAction
  | .storeFile m => .actStoreFile sender m
  | .getFile m => .actGetFile sender m
  | .peerExchange _ => .actNone

/-- `PeerExchangeService.HandlePeerExchange`: for each listed entry that is
neither the node's own address, nor currently connected, nor already known,
add it to the known-peers map tagged `pex` and dial it asynchronously.
Returns the updated known-peers association list and the list of dialed
addresses.  (Reachable only by direct call: the dispatcher never routes a
`peerExchange` payload here.) -/
def handlePeerExchange (selfAddr : String) (connected : List String)
    (known : List (String × String)) : List PeerInfo → List (String × String) × List String
  | [] => (known, [])
  | e :: rest =>
    if e.Address = selfAddr then handlePeerExchange selfAddr connected known rest
    else if e.Address ∈ connected then handlePeerExchange selfAddr connected known rest
    else if (known.lookup e.Address).isSome then handlePeerExchange selfAddr connected known rest
    else
      let r := handlePeerExchange selfAddr connected (known ++ [(e.Address, "pex")]) rest
      (r.1, e.Address :: r.2)

/-! ## Transport read loop (`src/p2p/transport.go`, `src/p2p/encoding.go`) -/

inductive DecodeOut
  | fail
  | ok (stream : Bool) (payload : List Nat)
  deriving DecidableEq

/-- `DefaultDecoder.Decode` on the bytes available on the connection: a
failed read of the single header byte returns a `nil` error (leaving the
RPC zero-valued, `Stream = false`, empty payload); a `0x02` header marks a
stream; otherwise one read of up to 1028 bytes fills the payload, and a
failed body read propagates the error. -/
def defaultDecode : List Nat → DecodeOut
  | [] => .ok false []
  | b :: rest =>
    if b == 2 then .ok true []
    else if rest.isEmpty then .fail
    else .ok false (rest.take 1028)

inductive LoopOutcome
  | exited (registry : List String)
  | enqueued (payload : List Nat) (registry : List String)
  | streamWait (registry : List String)
  deriving DecidableEq

/-- One iteration of `TCPTransport.handleConn`'s read loop, together with
the peer-registry value after the iteration.  On a decode error the loop
returns and the deferred cleanup runs `conn.Close()` only — neither
`handleConn` nor anything else in the source deletes the peer from the
server's `Peers` map (its sole mutation is the insertion in
`FileServer.OnPeer`), so the registry passes through unchanged on every
outcome, including exit. -/
def readLoopStep (registry : List String) (input : List Nat) : LoopOutcome :=
  match defaultDecode input with
  | .fail => .exited registry
  | .ok true _ => .streamWait registry
  | .ok false p => .enqueued p registry

/-! ## Composite scenarios -/

/-- Decode the little-endian 64-bit size prefix `binary.Read` consumes. -/
def readLE64 (bs : List Nat) : Nat :=
  (bs.take 8).reverse.foldl (fun acc b => acc * 256 + b) 0

/-- `Store.WriteDecrypt`: open the leaf for writing, then `copyDecrypt` the
source into it. -/
def serverWriteDecrypt (ks : Nat → Nat) (srv : Server) (id key : String)
    (src : List Nat) : Option Server :=
  match CopyDecrypt ks srv.encKey src with
  | none => none
  | some r => some { srv with disk := (storeWrite srv.root id key r.2 srv.disk).2 }

/-- Scenario S2 of the spec: node A runs `Store(key, data)` while connected
to B; B handles the `MessageStoreFile` and its streamed body; then B runs
`Get(key)`.  B first checks its own local store; on a miss it broadcasts
`MessageGetFile{ID: B.id, Key: HashKey key}`, A's `handleMessageGetFile`
serves it (or fails), B reads the size-prefixed response through
`WriteDecrypt` and finally reads the local copy.  When A's handler fails, B
receives no bytes (in the running system B's size read blocks); the model
then proceeds to the final local read, the outcome most favourable to the
claim. -/
def twoNodeReplicationGet (ks : Nat → Nat) (a b : Server) (aAddr bAddr : String)
    (key : String) (data iv : List Nat) : Option (List Nat) :=
  match serverStore ks a key data iv with
  | (_, _, none) => none
  | (a2, msg, some stream) =>
    match handleMessageStoreFile b aAddr msg (stream.drop 1) with
    | none => none
    | some b2 =>
      if storeHas b2.root b2.id key b2.disk then
        (storeRead b2.root b2.id key b2.disk).map (fun p => p.2)
      else
        match handleMessageGetFile a2 bAddr ⟨b2.id, HashKey key⟩ with
        | some resp =>
          let size := readLE64 (resp.drop 1)
          match serverWriteDecrypt ks b2 b2.id key ((resp.drop 9).take size) with
          | none => none
          | some b3 => (storeRead b3.root b3.id key b3.disk).map (fun p => p.2)
        | none => (storeRead b2.root b2.id key b2.disk).map (fun p => p.2)

/-! ## Concrete scenario constants -/

def ks0 : Nat → Nat := fun _ => 0

def iv0 : List Nat := List.replicate 16 0

def key32 : List Nat := List.replicate 32 0

def srvA : Server := ⟨"node-a", "storage/node_port_3000", key32, ["127.0.0.1:4000"], []⟩

def srvB : Server := ⟨"node-b", "storage/node_port_4000", key32, ["127.0.0.1:3000"], []⟩

def wbytes : List Nat := [119, 111, 114, 108, 100]

def payload1234 : List Nat := utf8Bytes "payload-1234"

def data40 : List Nat := List.replicate 40 7

/-- The pair (A, B) after A stored "doc" and B applied the resulting
`MessageStoreFile` with its streamed body. -/
def afterReplication : Server × Server :=
  match serverStore ks0 srvA "doc" payload1234 iv0 with
  | (a2, msg, some stream) =>
    match handleMessageStoreFile srvB "127.0.0.1:3000" msg (stream.drop 1) with
    | some b2 => (a2, b2)
    | none => (a2, srvB)
  | (a2, _, none) => (a2, srvB)

/-! ## Validation of the embedded primitives -/

/-- SHA-256 validation vector (`crypto/sha256` on the bytes of "abc"). -/
theorem sha256_abc_vector :
    hexOfBytes (sha256Bytes [97, 98, 99]) =
      "ba7816bf8f01cfea414140de5dae2223b00361a396177a9cb410ff61f20015ad" := by
  decide

/-- The storage package's own test vector (`TestPathTransformFunc`):
`HashKey` and the path transform agree with the expected values recorded in
the repository's test. -/
theorem path_transform_test_vector :
    HashKey "momsbestpicture" =
      "b159a9f0a78305c07dbce386598952bfa30b6aabb46a98b072c9195348abf9ea" ∧
    (CASPathTransformFunc "momsbestpicture").PathName =
      "b159a/9f0a7/8305c/07dbc/e3865/98952/bfa30/b6aab/b46a9/8b072/c9195/348ab" := by
  decide

/-! ## Helper lemmas -/

theorem xorKS_length (ks : Nat → Nat) (p : Nat) (xs : List Nat) :
    (xorKS ks p xs).length = xs.length := by
  induction xs generalizing p with
  | nil => rfl
  | cons b bs ih => simp [xorKS, ih]

theorem xorKS_append (ks : Nat → Nat) (p : Nat) (xs ys : List Nat) :
    xorKS ks p (xs ++ ys) = xorKS ks p xs ++ xorKS ks (p + xs.length) ys := by
  induction xs generalizing p with
  | nil => simp [xorKS]
  | cons b bs ih =>
    show Nat.xor b (ks p) :: xorKS ks (p + 1) (bs ++ ys)
        = Nat.xor b (ks p) :: xorKS ks (p + 1) bs ++ xorKS ks (p + (b :: bs).length) ys
    rw [ih (p + 1)]
    have h1 : p + 1 + bs.length = p + (b :: bs).length := by
      simp only [List.length_cons]
      omega
    rw [h1, List.cons_append]

theorem copyStreamGo_chunksGo (ks : Nat → Nat) (fuel : Nat) :
    ∀ xs pos nw, xs.length ≤ fuel →
      copyStreamGo ks pos nw (chunksGo fuel xs) = (nw + xs.length, xorKS ks pos xs) := by
  induction fuel with
  | zero =>
    intro xs pos nw h
    have hx : xs = [] := List.length_eq_zero.mp (Nat.le_zero.mp h)
    subst hx
    rfl
  | succ fuel ih =>
    intro xs pos nw h
    match xs with
    | [] => rfl
    | y :: ys =>
      have hlen : ((y :: ys).drop 32768).length ≤ fuel := by
        simp only [List.length_drop, List.length_cons] at h ⊢
        omega
      have htd : (y :: ys).take 32768 ++ (y :: ys).drop 32768 = y :: ys :=
        List.take_append_drop 32768 (y :: ys)
      have hlen2 : ((y :: ys).take 32768).length + ((y :: ys).drop 32768).length
          = (y :: ys).length := by
        rw [← List.length_append, htd]
      have hxor : xorKS ks pos ((y :: ys).take 32768) ++
          xorKS ks (pos + ((y :: ys).take 32768).length) ((y :: ys).drop 32768)
          = xorKS ks pos (y :: ys) := by
        rw [← xorKS_append, htd]
      show copyStreamGo ks pos nw
          ((y :: ys).take 32768 :: chunksGo fuel ((y :: ys).drop 32768)) = _
      simp only [copyStreamGo]
      rw [ih _ _ _ hlen]
      simp only [Prod.mk.injEq]
      exact ⟨by omega, hxor⟩

theorem copyStream_eq (ks : Nat → Nat) (blockSize : Nat) (src : List Nat) :
    copyStream ks blockSize src = (blockSize + src.length, xorKS ks 0 src) :=
  copyStreamGo_chunksGo ks src.length src 0 blockSize (Nat.le_refl _)

theorem casSegments_cons5 (l : List Char) (h : 5 ≤ l.length) :
    casSegments l = l.take 5 :: casSegments (l.drop 5) := by
  unfold casSegments
  have hdiv : l.length / 5 = (l.drop 5).length / 5 + 1 := by
    rw [List.length_drop]
    rw [Nat.div_eq_sub_div (by norm_num) h]
  rw [hdiv, List.range_succ_eq_map]
  simp only [List.map_cons, List.map_map]
  refine congrArg₂ List.cons (by simp) ?_
  apply List.map_congr_left
  intro i _
  simp only [Function.comp_apply]
  rw [List.drop_drop]
  have h5 : 5 * Nat.succ i = 5 * i + 5 := by omega
  rw [h5, Nat.add_comm (5 * i) 5]

theorem specChunksGo_eq (fuel : Nat) :
    ∀ l : List Char, l.length ≤ fuel → specChunksGo fuel l = casSegments l := by
  induction fuel with
  | zero =>
    intro l h
    have hl : l = [] := List.length_eq_zero.mp (Nat.le_zero.mp h)
    subst hl
    rfl
  | succ fuel ih =>
    intro l h
    by_cases h5 : l.length < 5
    · have : l.length / 5 = 0 := Nat.div_eq_of_lt h5
      simp [specChunksGo, h5, casSegments, this]
    · push_neg at h5
      have hd : (l.drop 5).length ≤ fuel := by
        simp only [List.length_drop]
        omega
      have hne : ¬ l.length < 5 := by omega
      show (if l.length < 5 then [] else l.take 5 :: specChunksGo fuel (l.drop 5))
          = casSegments l
      rw [if_neg hne, ih _ hd, casSegments_cons5 l h5]

theorem specChunks_eq_casSegments (l : List Char) : specChunks l = casSegments l :=
  specChunksGo_eq l.length l (Nat.le_refl _)

/-! ## Claim theorems -/

/-- Claim C1: on a single node with no connected peers, `Store(name, bytes)`
succeeds and a following `Get(name)` returns exactly the original bytes, for
every name and byte sequence (on a node configured with a 32-byte AES
key). -/
theorem C1_local_roundtrip (ks : Nat → Nat) (srv : Server) (key : String)
    (data iv : List Nat) (hk : srv.encKey.length = 32) :
    (serverStore ks srv key data iv).2.2.isSome = true ∧
    serverGetNoPeers (serverStore ks srv key data iv).1 key = some data := by
  have hv : validAesKey srv.encKey := Or.inr (Or.inr hk)
  constructor
  · simp [serverStore, CopyEncrypt, hv, storeWrite]
  · simp [serverStore, CopyEncrypt, hv, serverGetNoPeers, storeHas, storeRead,
      storeWrite, diskLookup]

/-- Witness for C1 at scenario S1's inputs: key "hello.txt", payload
"world". -/
theorem C1_local_roundtrip_witness :
    srvA.encKey.length = 32 ∧
    ((serverStore ks0 srvA "hello.txt" wbytes iv0).2.2.isSome = true ∧
      serverGetNoPeers (serverStore ks0 srvA "hello.txt" wbytes iv0).1 "hello.txt"
        = some wbytes) :=
  ⟨by decide, C1_local_roundtrip ks0 srvA "hello.txt" wbytes iv0 (by decide)⟩

/-- Claim C2 (code bug): in the two-node scenario S2, after A stores "doc"
and B applies the replicated stream, B's `Get("doc")` returns `none` instead
of the payload: B looks locally at `(B.id, "doc")` while the replica was
written at `(A.id, HashKey "doc")`, and A's `handleMessageGetFile` fails
because it looks up the blob at the requester's node-id `(B.id,
HashKey "doc")`. -/
theorem C2_replication_get_fails :
    twoNodeReplicationGet ks0 srvA srvB "127.0.0.1:3000" "127.0.0.1:4000"
      "doc" payload1234 iv0 = none ∧
    handleMessageGetFile (serverStore ks0 srvA "doc" payload1234 iv0).1
      "127.0.0.1:4000" ⟨"node-b", HashKey "doc"⟩ = none := by
  decide

/-- Claim C3 (code bug): `FileServer.Store` contains no quota admission
check — `CheckQuota` reports that a 40-byte blob does not fit a 32-byte
quota, yet `Store` succeeds and the full blob lands on disk. -/
theorem C3_quota_not_enforced :
    (CheckQuota 32 0 40).1 = false ∧
    (serverStore ks0 srvA "a" data40 iv0).2.2.isSome = true ∧
    diskLookup (serverStore ks0 srvA "a" data40 iv0).1.disk
      (storePath srvA.root srvA.id "a") = some data40 := by
  decide

/-- Claim C4 (code bug): the blob leaf is the SHA-256 of the user key, not
of the content, so after `Put("x", b"abc")` the GC integrity sweep removes
the intact blob: SHA-256 of "abc" differs from the leaf `HashKey "x"`. -/
theorem C4_gc_removes_intact_blob :
    diskLookup (serverStore ks0 srvA "x" [97, 98, 99] iv0).1.disk
      (storePath srvA.root srvA.id "x") = some [97, 98, 99] ∧
    diskLookup (gcSweep srvA.root srvA.id (serverStore ks0 srvA "x" [97, 98, 99] iv0).1.disk)
      (storePath srvA.root srvA.id "x") = none ∧
    hexOfBytes (sha256Bytes [97, 98, 99]) ≠ HashKey "x" := by
  decide

/-- Claim C5 (code bug): `FileServer.Delete` fails on an absent blob and
removes a present blob locally, but broadcasts nothing — its emitted
message list is empty and the peer's replicated copy survives — contrary to
its own comment ("broadcasts deletion to peers"). -/
theorem C5_delete_not_broadcast :
    (serverDelete afterReplication.1 "doc").2 = [] ∧
    (serverDelete afterReplication.1 "doc").1.isSome = true ∧
    storeHas afterReplication.1.root afterReplication.1.id "doc"
      ((serverDelete afterReplication.1 "doc").1.getD afterReplication.1).disk = false ∧
    diskLookup afterReplication.2.disk
      (storePath srvB.root "node-a" (HashKey "doc"))
      = some (iv0 ++ xorKS ks0 0 payload1234) := by
  decide

/-- Claim C6 (amended): an address registered by `OnPeer` is never removed:
whenever the read loop exits, the registry is unchanged (so the peer stays
registered), and an EOF while reading the frame header does not terminate
the loop at all — `DefaultDecoder.Decode` swallows the error and the loop
enqueues an empty non-stream message. -/
theorem C6_read_loop_registry (registry : List String) (addr : String)
    (input : List Nat) (hmem : addr ∈ registry) :
    readLoopStep registry [] = .enqueued [] registry ∧
    (∀ out, readLoopStep registry input = .exited out → out = registry ∧ addr ∈ out) := by
  constructor
  · rfl
  · intro out hout
    unfold readLoopStep at hout
    match hdec : defaultDecode input with
    | .fail =>
      rw [hdec] at hout
      simp only [LoopOutcome.exited.injEq] at hout
      exact ⟨hout.symm, hout ▸ hmem⟩
    | .ok true p => rw [hdec] at hout; exact absurd hout (by simp)
    | .ok false p => rw [hdec] at hout; exact absurd hout (by simp)

/-- Witness for C6 at a concrete registry and input. -/
theorem C6_read_loop_registry_witness :
    "127.0.0.1:9000" ∈ ["127.0.0.1:9000"] ∧
    (readLoopStep ["127.0.0.1:9000"] [] = .enqueued [] ["127.0.0.1:9000"] ∧
      (∀ out, readLoopStep ["127.0.0.1:9000"] [0x1] = .exited out →
        out = ["127.0.0.1:9000"] ∧ "127.0.0.1:9000" ∈ out)) :=
  ⟨by decide, C6_read_loop_registry ["127.0.0.1:9000"] "127.0.0.1:9000" [0x1] (by decide)⟩

/-- Counterexample to C6 as stated: on EOF at the frame header the read
loop does not terminate and does not remove the peer — it enqueues an empty
message with the registry intact. -/
theorem C6_counterexample :
    readLoopStep ["127.0.0.1:9000"] [] = .enqueued [] ["127.0.0.1:9000"] ∧
    readLoopStep ["127.0.0.1:9000"] [] ≠ .exited [] := by
  decide

/-- Claim C7: for a 32-byte key and a 16-byte IV, `CopyEncrypt` writes
exactly `n + 16` bytes (the IV followed by `n` ciphertext bytes) and
returns that count, and the `Size` field of the `MessageStoreFile` built by
`Store` equals the local byte count plus 16 and is exactly the length of
the stream each peer must read after the `IncomingStream` byte. -/
theorem C7_encrypted_length (ks : Nat → Nat) (srv : Server) (key : String)
    (data iv : List Nat) (hk : srv.encKey.length = 32) (hiv : iv.length = 16) :
    CopyEncrypt ks srv.encKey iv data = some (data.length + 16, iv ++ xorKS ks 0 data) ∧
    (iv ++ xorKS ks 0 data).length = data.length + 16 ∧
    (serverStore ks srv key data iv).2.1.Size = data.length + 16 ∧
    (serverStore ks srv key data iv).2.2 = some (2 :: (iv ++ xorKS ks 0 data)) := by
  have hv : validAesKey srv.encKey := Or.inr (Or.inr hk)
  have hce : CopyEncrypt ks srv.encKey iv data
      = some (data.length + 16, iv ++ xorKS ks 0 data) := by
    simp [CopyEncrypt, hv, copyStream_eq, Nat.add_comm]
  refine ⟨hce, ?_, ?_, ?_⟩
  · simp only [List.length_append, xorKS_length, hiv]
    omega
  · simp [serverStore, hce, storeWrite]
  · simp [serverStore, hce, storeWrite]

/-- Witness for C7 at the S1 inputs. -/
theorem C7_encrypted_length_witness :
    srvA.encKey.length = 32 ∧ iv0.length = 16 ∧
    (CopyEncrypt ks0 srvA.encKey iv0 wbytes
        = some (wbytes.length + 16, iv0 ++ xorKS ks0 0 wbytes) ∧
      (iv0 ++ xorKS ks0 0 wbytes).length = wbytes.length + 16 ∧
      (serverStore ks0 srvA "hello.txt" wbytes iv0).2.1.Size = wbytes.length + 16 ∧
      (serverStore ks0 srvA "hello.txt" wbytes iv0).2.2
        = some (2 :: (iv0 ++ xorKS ks0 0 wbytes))) :=
  ⟨by decide, by decide,
    C7_encrypted_length ks0 srvA "hello.txt" wbytes iv0 (by decide) (by decide)⟩

/-- Claim C8: the derived key-id is the hex SHA-256 of the UTF-8 bytes of
the key, and the transform's path is that hex string split into the
consecutive fixed 5-character segments (the spec-side peeling formulation),
joined as directories, with the full hex digest as the leaf filename. -/
theorem C8_content_address_path (key : String) :
    (CASPathTransformFunc key).Filename = HashKey key ∧
    (CASPathTransformFunc key).PathName
      = String.intercalate "/" ((specChunks (HashKey key).data).map String.mk) ∧
    fullPathOf (CASPathTransformFunc key)
      = String.intercalate "/" ((specChunks (HashKey key).data).map String.mk)
        ++ "/" ++ HashKey key := by
  refine ⟨rfl, ?_, ?_⟩
  · simp [CASPathTransformFunc, specChunks_eq_casSegments]
  · simp [fullPathOf, CASPathTransformFunc, specChunks_eq_casSegments]

/-- Claim C9 (amended): `Store` writes the raw plaintext to the local
content-addressed tree, and streams the encrypted form (IV plus
ciphertext, after the `IncomingStream` byte) to every connected peer. -/
theorem C9_local_plaintext_stream_ciphertext (ks : Nat → Nat) (srv : Server)
    (key : String) (data iv : List Nat) (hk : srv.encKey.length = 32) :
    diskLookup (serverStore ks srv key data iv).1.disk (storePath srv.root srv.id key)
      = some data ∧
    (serverStore ks srv key data iv).2.2 = some (2 :: (iv ++ xorKS ks 0 data)) := by
  have hv : validAesKey srv.encKey := Or.inr (Or.inr hk)
  have hce : CopyEncrypt ks srv.encKey iv data
      = some (data.length + 16, iv ++ xorKS ks 0 data) := by
    simp [CopyEncrypt, hv, copyStream_eq, Nat.add_comm]
  constructor
  · simp [serverStore, hce, storeWrite, diskLookup]
  · simp [serverStore, hce, storeWrite]

/-- Witness for C9's amended statement. -/
theorem C9_local_plaintext_stream_ciphertext_witness :
    srvA.encKey.length = 32 ∧
    (diskLookup (serverStore ks0 srvA "hello.txt" wbytes iv0).1.disk
        (storePath srvA.root srvA.id "hello.txt") = some wbytes ∧
      (serverStore ks0 srvA "hello.txt" wbytes iv0).2.2
        = some (2 :: (iv0 ++ xorKS ks0 0 wbytes))) :=
  ⟨by decide, C9_local_plaintext_stream_ciphertext ks0 srvA "hello.txt" wbytes iv0 (by decide)⟩

/-- Counterexample to C9 as stated: the locally written bytes are the
plaintext "world", which differs from the encrypted form (16-byte IV plus
ciphertext) that goes to the peers. -/
theorem C9_counterexample :
    diskLookup (serverStore ks0 srvA "hello.txt" wbytes iv0).1.disk
      (storePath srvA.root srvA.id "hello.txt") = some wbytes ∧
    (serverStore ks0 srvA "hello.txt" wbytes iv0).2.2
      = some (2 :: (iv0 ++ xorKS ks0 0 wbytes)) ∧
    wbytes ≠ iv0 ++ xorKS ks0 0 wbytes := by
  decide

/-- Claim C10 (code bug): the inbound dispatcher drops `MessagePeerExchange`
payloads — `handleMessage` returns without any action, adding no known peer
and dialing nobody — while the never-invoked `HandlePeerExchange` would
have added the fresh address as pex-sourced and dialed it, exactly as the
claim describes. -/
theorem C10_pex_dispatch_dropped :
    handleMessage "127.0.0.1:4000"
      (.peerExchange [⟨"10.0.0.9:3000", "pex"⟩]) = .actNone ∧
    handlePeerExchange "127.0.0.1:3000" ["127.0.0.1:4000"] []
      [⟨"10.0.0.9:3000", "pex"⟩]
      = ([("10.0.0.9:3000", "pex")], ["10.0.0.9:3000"]) := by
  decide

end PeerVault
